import Mathlib

/-!
Verification of the luminair-service persistence core.

This file is a shallow embedding, in Lean 4, of the parts of the
`luminair-cms/luminair-service` Rust sources that the checked claims are
about:

* the identifier model (`src/common/src/domain/mod.rs`,
  `src/common/src/domain/documents.rs`, `src/common/src/domain/entities.rs`),
* the schema model and the schema-to-table derivation
  (`src/common/src/domain/attributes.rs`,
  `src/common/src/domain/persistence/mod.rs`,
  `src/common/src/domain/persistence/tables.rs`),
* the migration planner (`src/migration/src/domain/migration.rs`),
* the schema-directory loader (`src/common/src/infrastructure/documents.rs`
  and `src/common/src/infrastructure/adapters/documents.rs`),
* the row decoder (`src/service/src/infrastructure/persistence/repository.rs`),
* the relation grouping / joining of the data handlers
  (`src/service/src/infrastructure/http/handlers/data/mod.rs`).

Modelling conventions:

* Rust `String` is Lean `String`; character-wise operations are defined on
  `String.data` so that they compute inside the kernel.  Rust's Unicode
  `char::is_whitespace` and `str::to_lowercase` are modelled by Lean's
  `Char.isWhitespace` / `Char.toLower` (they agree on all ASCII input,
  which is the only input the identifier charset admits).
* Rust `i32`/`i64` become `Int`; `chrono::DateTime<Utc>` becomes `Int`
  (an epoch timestamp: only equality and propagation of the value matter
  to the claims).
* `Vec<T>` becomes `List T` (push = append at the right end);
  `HashSet`/`HashMap` become lists with the insert semantics of the
  corresponding Rust operation, made explicit at each definition.
* Rust panics (`panic!`, `unwrap` on a wrong variant) are modelled with
  `Option`: `none` is the panic.
* `&'static Document` back-references (`RelationTarget::Ref`) are modelled
  by nesting the target `Document` value itself.
-/

namespace Luminair

/-! ## String primitives shared by the identifier model -/

/-- Rust `str::trim`: drop whitespace from both ends (`src/common/src/domain/mod.rs`
uses it through `nutype`'s `sanitize(trim, ...)`). -/
def strTrim (s : String) : String :=
  ⟨((s.data.dropWhile Char.isWhitespace).reverse.dropWhile Char.isWhitespace).reverse⟩

/-- Rust `str::to_lowercase` (ASCII fragment), used by `nutype`'s
`sanitize(..., lowercase)`. -/
def strLowercase (s : String) : String :=
  ⟨s.data.map Char.toLower⟩

/-- `nutype` applies the sanitizers in declaration order: `trim`, then
`lowercase` (`#[nutype(sanitize(trim, lowercase), ...)]`). -/
def sanitizeId (s : String) : String :=
  strLowercase (strTrim s)

def beginsWithChars : List Char → List Char → Bool
  | _, [] => true
  | [], _ :: _ => false
  | c :: cs, p :: ps => c == p && beginsWithChars cs ps

/-- Rust `str::starts_with` for a string pattern. -/
def strBeginsWith (s pat : String) : Bool :=
  beginsWithChars s.data pat.data

/-- One character of the class ASCII alphanumerics plus underscore, slash and dash, of `ELIGIBLE_SYMBOLS_REGEX`
(`src/common/src/domain/mod.rs`).  `Char.isAlphanum` is exactly
`[A-Za-z0-9]`. -/
def isEligibleSymbol (c : Char) : Bool :=
  c.isAlphanum || c == '_' || c == '/' || c == '-'

/-- `Regex::is_match` for the anchored `ELIGIBLE_SYMBOLS_REGEX` (one or more eligible symbols spanning the whole string): the whole
string is a non-empty run of eligible symbols. -/
def matchesEligibleSymbols (s : String) : Bool :=
  !s.data.isEmpty && s.data.all isEligibleSymbol

/-- `is_eligible_id` from `src/common/src/domain/mod.rs`:
`!id.starts_with("luminair_") && ELIGIBLE_SYMBOLS_REGEX_COMPILED.is_match(id)`. -/
def is_eligible_id (s : String) : Bool :=
  !strBeginsWith s "luminair_" && matchesEligibleSymbols s

/-- The error enum `nutype` generates for
`validate(not_empty, len_char_max=20, predicate = is_eligible_id)`. -/
inductive IdValidationError where
  | notEmptyViolated
  | lenCharMaxViolated
  | predicateViolated
deriving DecidableEq

/-- `DocumentTypeId::try_new` as generated by `nutype` for
`src/common/src/domain/mod.rs`: sanitize first, then run the validators in
declaration order, failing on the first violation. -/
def DocumentTypeId.tryNew (s : String) : Except IdValidationError String :=
  let x := sanitizeId s
  if x.data.isEmpty then .error .notEmptyViolated
  else if 20 < x.data.length then .error .lenCharMaxViolated
  else if !is_eligible_id x then .error .predicateViolated
  else .ok x

/-- `AttributeId::try_new` (`src/common/src/domain/mod.rs`): same sanitizers
and validators as `DocumentTypeId`. -/
def AttributeId.tryNew (s : String) : Except IdValidationError String :=
  let x := sanitizeId s
  if x.data.isEmpty then .error .notEmptyViolated
  else if 20 < x.data.length then .error .lenCharMaxViolated
  else if !is_eligible_id x then .error .predicateViolated
  else .ok x

/-- The shared body of `DocumentTypeId::normalized` and
`AttributeId::normalized` (`src/common/src/domain/mod.rs`):
`self.as_ref().replace("-", "_")` — the pattern and replacement are single
characters, so `replace` is a character map. -/
def normalizedStr (s : String) : String :=
  ⟨s.data.map (fun c => if c = '-' then '_' else c)⟩

/-- Claim-side validity predicate, spelled from the spec's words: non-empty,
at most 20 characters, matching the eligible-symbols regex, and not starting with
the reserved internal prefix `luminair_`. -/
def isValidIdString (x : String) : Bool :=
  !x.data.isEmpty && x.data.length ≤ 20 && matchesEligibleSymbols x &&
    !strBeginsWith x "luminair_"

/-! ## LocalizationId (`src/common/src/domain/documents.rs` and
`src/common/src/domain/entities.rs`, identical definitions) -/

/-- The error enum `nutype` generates for `LocalizationId`'s validators. -/
inductive LocalizationIdError where
  | notEmptyViolated
  | lenCharMinViolated
  | lenCharMaxViolated
  | regexViolated
deriving DecidableEq

/-- `Regex::is_match` for `VALID_LOCALIZATIONS_REGEX = "^(ru|ro|en)"`: the
regex is anchored only on the left, so it matches any string that starts
with one of the three alternatives. -/
def matchesValidLocalizations (s : String) : Bool :=
  strBeginsWith s "ru" || strBeginsWith s "ro" || strBeginsWith s "en"

/-- `LocalizationId::try_new` as generated by `nutype` for
`sanitize(trim, lowercase)`,
`validate(not_empty, len_char_min = 2, len_char_max = 2, regex = VALID_LOCALIZATIONS_REGEX)`. -/
def LocalizationId.tryNew (s : String) : Except LocalizationIdError String :=
  let x := sanitizeId s
  if x.data.isEmpty then .error .notEmptyViolated
  else if x.data.length < 2 then .error .lenCharMinViolated
  else if 2 < x.data.length then .error .lenCharMaxViolated
  else if !matchesValidLocalizations x then .error .regexViolated
  else .ok x

/-! ## Schema model (`src/common/src/domain/documents.rs` and
`src/common/src/domain/attributes.rs`)

`DocumentId` values are carried as already-validated `String`s.  The
`RwLock<RelationTarget>` of the source only serves interior mutability for
the two-pass linking; the value inside is what matters here, and the
`RelationTarget::Ref(&'static Document)` back-reference is modelled by
nesting the target `Document` itself. -/

inductive DocumentKind where
  | collection
  | singleton
deriving DecidableEq

structure DocumentInfo where
  title : String
  description : String
  singularName : String
  pluralName : String
deriving DecidableEq

structure DocumentOptions where
  draftAndPublish : Bool
  localizations : List String
deriving DecidableEq

inductive AttributeType where
  | uid
  | uuid
  | text
  | integer
  | decimal
  | date
  | dateTime
  | boolean
deriving DecidableEq

inductive RelationType where
  | hasOne
  | hasMany
  | belongsToOne
  | belongsToMany
deriving DecidableEq

/-- `RelationType::is_owning` (`src/common/src/domain/attributes.rs`). -/
def RelationType.is_owning : RelationType → Bool
  | .hasOne => true
  | .hasMany => true
  | .belongsToOne => false
  | .belongsToMany => false

/-- `RelationType::is_inverse` (`src/common/src/domain/attributes.rs`). -/
def RelationType.is_inverse : RelationType → Bool
  | .hasOne => false
  | .hasMany => false
  | .belongsToOne => true
  | .belongsToMany => true

structure AttributeConstraints where
  pattern : Option String
  minimalLength : Option Nat
  maximalLength : Option Nat
deriving DecidableEq

mutual

inductive Document where
  | mk (id : String) (documentKind : DocumentKind) (info : DocumentInfo)
       (options : Option DocumentOptions) (attributes : List Attribute)

inductive Attribute where
  | mk (id : String) (body : AttributeBody)

inductive AttributeBody where
  | field (attributeType : AttributeType) (unique required localized : Bool)
          (constraints : Option AttributeConstraints)
  | relation (relationType : RelationType) (target : RelationTarget)
             (ordering : Bool)

inductive RelationTarget where
  | byId (id : String)
  | byRef (doc : Document)

end

def Document.id : Document → String
  | .mk i _ _ _ _ => i

def Document.documentKind : Document → DocumentKind
  | .mk _ k _ _ _ => k

def Document.info : Document → DocumentInfo
  | .mk _ _ i _ _ => i

def Document.options : Document → Option DocumentOptions
  | .mk _ _ _ o _ => o

def Document.attributes : Document → List Attribute
  | .mk _ _ _ _ a => a

def Attribute.id : Attribute → String
  | .mk i _ => i

def Attribute.body : Attribute → AttributeBody
  | .mk _ b => b

/-- `Document::has_localization` (`src/common/src/domain/documents.rs`):
`self.options.as_ref().map_or(false, |o| !o.localizations.is_empty())`. -/
def Document.has_localization (d : Document) : Bool :=
  match d.options with
  | some o => !o.localizations.isEmpty
  | none => false

/-- `Document::has_draft_and_publish` (`src/common/src/domain/documents.rs`):
`self.options.as_ref().map_or(false, |o| o.draft_and_publish)`. -/
def Document.has_draft_and_publish (d : Document) : Bool :=
  match d.options with
  | some o => o.draftAndPublish
  | none => false

/-! ## Derived persistence layout (`src/common/src/domain/persistence/tables.rs`) -/

inductive ColumnType where
  | serial
  | uuid
  | text
  | varchar
  | integer
  | decimal
  | date
  | timestampTZ
  | boolean
deriving DecidableEq

structure Column where
  name : String
  attributeName : Option String
  columnType : ColumnType
  columnLength : Option Nat
  notNull : Bool
  unique : Bool
  primaryKey : Bool
  defaultValue : Option String
deriving DecidableEq

/-- `Column::new` (`src/common/src/domain/persistence/tables.rs`): every
explicit field, with `primary_key = false`. -/
def Column.new (name : String) (attributeName : Option String)
    (columnType : ColumnType) (columnLength : Option Nat)
    (notNull unique : Bool) (defaultValue : Option String) : Column :=
  { name, attributeName, columnType, columnLength, notNull, unique,
    primaryKey := false, defaultValue }

/-- `Column::primary_key` (`src/common/src/domain/persistence/tables.rs`). -/
def Column.primaryKeyCol (name : String) (columnType : ColumnType)
    (columnLength : Option Nat) : Column :=
  { name, attributeName := none, columnType, columnLength, notNull := false,
    unique := false, primaryKey := true, defaultValue := none }

structure ForeignKeyConstraint where
  tableName : String
  columnName : String
  referencedTableName : String
  referencedColumnName : String
deriving DecidableEq

structure Index where
  tableName : String
  columns : List String
  unique : Bool
deriving DecidableEq

structure Table where
  name : String
  columns : List Column
  foreignKeys : List ForeignKeyConstraint
  indexes : List Index
deriving DecidableEq

/-! ## Table derivation (`src/common/src/domain/persistence/mod.rs`) -/

structure MainTableBuilder where
  tableName : String
  hasDraftAndPublish : Bool
  columns : List Column
deriving DecidableEq

/-- `MainTableBuilder::new`. -/
def MainTableBuilder.new (d : Document) : MainTableBuilder :=
  { tableName := normalizedStr d.id,
    hasDraftAndPublish := d.has_draft_and_publish,
    columns := [Column.primaryKeyCol "document_id" .serial none] }

/-- `MainTableBuilder::push` (`Vec::push` appends at the end). -/
def MainTableBuilder.push (b : MainTableBuilder) (c : Column) : MainTableBuilder :=
  { b with columns := b.columns ++ [c] }

/-- The `created_at` audit column appended by `MainTableBuilder::into`. -/
def createdAtColumn : Column :=
  Column.new "created_at" none .timestampTZ none true false (some "now()")

/-- The `updated_at` audit column appended by `MainTableBuilder::into`. -/
def updatedAtColumn : Column :=
  Column.new "updated_at" none .timestampTZ none false false none

/-- The `published_at` column appended by `MainTableBuilder::into` when the
document has draft-and-publish. -/
def publishedAtColumn : Column :=
  Column.new "published_at" none .timestampTZ none false false none

/-- `MainTableBuilder::into`: append the audit columns (and `published_at`
when draft-and-publish is on), then build the table. -/
def MainTableBuilder.intoTable (b : MainTableBuilder) : Table :=
  { name := b.tableName,
    columns := b.columns ++ [createdAtColumn, updatedAtColumn] ++
      (if b.hasDraftAndPublish then [publishedAtColumn] else []),
    foreignKeys := [],
    indexes := [] }

structure LocalizationTableBuilder where
  mainTableName : String
  localizationTableName : String
  columns : List Column
deriving DecidableEq

/-- `LocalizationTableBuilder::new`. -/
def LocalizationTableBuilder.new (mainTableName : String) : LocalizationTableBuilder :=
  { mainTableName,
    localizationTableName := mainTableName ++ "_localization",
    columns := [Column.primaryKeyCol "document_id" .integer none,
                Column.primaryKeyCol "locale" .varchar (some 2)] }

/-- `LocalizationTableBuilder::push`. -/
def LocalizationTableBuilder.push (b : LocalizationTableBuilder) (c : Column) :
    LocalizationTableBuilder :=
  { b with columns := b.columns ++ [c] }

/-- `LocalizationTableBuilder::into`: foreign key and index on
`document_id` back to the main table. -/
def LocalizationTableBuilder.intoTable (b : LocalizationTableBuilder) : Table :=
  { name := b.localizationTableName,
    columns := b.columns,
    foreignKeys := [⟨b.localizationTableName, "document_id", b.mainTableName,
                     "document_id"⟩],
    indexes := [⟨b.localizationTableName, ["document_id"], false⟩] }

structure RelationTablesBuilder where
  mainTableName : String
  owningColumnName : String
  relationTables : List Table
deriving DecidableEq

/-- `RelationTablesBuilder::new`:
`owning_column_name = format!("{}_id", document.info.singular_name.normalized())`. -/
def RelationTablesBuilder.new (d : Document) (mainTableName : String) :
    RelationTablesBuilder :=
  { mainTableName,
    owningColumnName := normalizedStr d.info.singularName ++ "_id",
    relationTables := [] }

/-- The junction table `RelationTablesBuilder::push` builds for a resolved
target document (everything after the `RelationTarget::Ref` match). -/
def relationTableFor (mainTableName owningColumnName : String)
    (id : String) (targetDoc : Document) (ordering : Bool) : Table :=
  let relationTableName := mainTableName ++ "_" ++ id ++ "_relation"
  let inverseColumnName := normalizedStr targetDoc.info.singularName ++ "_id"
  let columns :=
    [Column.primaryKeyCol "relation_id" .serial none,
     Column.new owningColumnName none .integer none true false none,
     Column.new inverseColumnName none .integer none true false none] ++
    (if ordering then
      [Column.new (inverseColumnName ++ "_order") none .integer none true false none]
     else [])
  { name := relationTableName,
    columns,
    foreignKeys :=
      [⟨relationTableName, owningColumnName, mainTableName, "document_id"⟩,
       ⟨relationTableName, inverseColumnName, normalizedStr targetDoc.id,
        "document_id"⟩],
    indexes :=
      [⟨relationTableName, [owningColumnName], false⟩,
       ⟨relationTableName, [inverseColumnName], false⟩] }

/-- `RelationTablesBuilder::push`: panics (`none`) when the relation target
is still an unresolved id; otherwise appends the junction table. -/
def RelationTablesBuilder.push (b : RelationTablesBuilder) (id : String)
    (target : RelationTarget) (ordering : Bool) : Option RelationTablesBuilder :=
  match target with
  | .byId _ => none
  | .byRef targetDoc =>
      some { b with relationTables := b.relationTables ++
               [relationTableFor b.mainTableName b.owningColumnName id targetDoc
                  ordering] }

/-- The `AttributeType → ColumnType` match inside `handle_document_attribute`
(`src/common/src/domain/persistence/mod.rs`). -/
def attributeColumnType : AttributeType → ColumnType
  | .uid => .text
  | .uuid => .uuid
  | .text => .text
  | .integer => .integer
  | .decimal => .decimal
  | .date => .date
  | .dateTime => .timestampTZ
  | .boolean => .boolean

/-- `handle_document_attribute` (`src/common/src/domain/persistence/mod.rs`):
route a field column to the main or localization builder, an owning relation
to the relation-tables builder, and skip inverse relations. -/
def handle_document_attribute (a : Attribute) (m : MainTableBuilder)
    (l : LocalizationTableBuilder) (r : RelationTablesBuilder) :
    Option (MainTableBuilder × LocalizationTableBuilder × RelationTablesBuilder) :=
  match a.body with
  | .field attributeType unique required localized _ =>
      let column := Column.new (normalizedStr a.id) (some a.id)
        (attributeColumnType attributeType) none required unique none
      if localized then some (m, l.push column, r)
      else some (m.push column, l, r)
  | .relation relationType target ordering =>
      if relationType.is_owning then
        (r.push (normalizedStr a.id) target ordering).map (fun r' => (m, l, r'))
      else some (m, l, r)

/-- The attribute loop of `DocumentPersistence::from`: thread the three
builders through `handle_document_attribute`, stopping at a panic. -/
def handleAttributes :
    List Attribute →
    MainTableBuilder × LocalizationTableBuilder × RelationTablesBuilder →
    Option (MainTableBuilder × LocalizationTableBuilder × RelationTablesBuilder)
  | [], s => some s
  | a :: attrs, s =>
      match handle_document_attribute a s.1 s.2.1 s.2.2 with
      | none => none
      | some s' => handleAttributes attrs s'

structure DocumentPersistence where
  mainTable : Table
  localizationTable : Option Table
  relationTables : List Table
deriving DecidableEq

/-- `DocumentPersistence::from(&'static Document)`
(`src/common/src/domain/persistence/mod.rs`).  The `document_ref`
back-pointer of the source struct is omitted; `none` models the panic on an
unresolved relation target. -/
def DocumentPersistence.from (d : Document) : Option DocumentPersistence :=
  let m := MainTableBuilder.new d
  let l := LocalizationTableBuilder.new m.tableName
  let r := RelationTablesBuilder.new d m.tableName
  (handleAttributes d.attributes (m, l, r)).map (fun s =>
    { mainTable := s.1.intoTable,
      localizationTable := if d.has_localization then some s.2.1.intoTable else none,
      relationTables := s.2.2.relationTables })

/-! ## Migration planner (`src/migration/src/domain/migration.rs`)

`documents.persisted_documents()` hands the per-document table sets to the
loop; the per-document derivation is the `DocumentPersistence` builder
above (the migration crate repeats the same builder code).  The iteration
order of the document registry is the order of the list here. -/

/-- The document loop of `documents_into_tables`: `tables` collects each
document's main table followed by its localization table, `relationTables`
collects the relation tables separately. -/
def migrationTablesLoop :
    List Document → List Table → List Table → Option (List Table × List Table)
  | [], tables, relationTables => some (tables, relationTables)
  | d :: docs, tables, relationTables =>
      match DocumentPersistence.from d with
      | none => none
      | some p =>
          migrationTablesLoop docs
            (tables ++ [p.mainTable] ++ p.localizationTable.toList)
            (relationTables ++ p.relationTables)

/-- `documents_into_tables` (`src/migration/src/domain/migration.rs`): main
and localization tables per document in iteration order, all relation
tables appended last. -/
def documents_into_tables (docs : List Document) : Option (List Table) :=
  (migrationTablesLoop docs [] []).map (fun acc => acc.1 ++ acc.2)

/-- The planning phase of `Migration::migrate`: keep each needed table whose
name is not in the live database's table-name list
(`if !actual_schema.contains(&table.name)`). -/
def Migration.plan (needed : List Table) (actualSchema : List String) : List Table :=
  needed.filter (fun t => !actualSchema.contains t.name)

/-- `Migration::migrate` up to the DDL application: recompute the needed
schema from the documents and diff it against the live table names. -/
def Migration.migratePlan (docs : List Document) (actualSchema : List String) :
    Option (List Table) :=
  (documents_into_tables docs).map (fun needed => Migration.plan needed actualSchema)

/-- Claim-side ordering (spec §4.3 and claim C4): all main tables first,
then all localization tables, then all relation tables. -/
def phasedTables (docs : List Document) : Option (List Table) :=
  (docs.foldlM
    (fun (acc : List Table × List Table × List Table) d =>
      (DocumentPersistence.from d).map (fun p =>
        (acc.1 ++ [p.mainTable],
         acc.2.1 ++ p.localizationTable.toList,
         acc.2.2 ++ p.relationTables)))
    ([], [], [])).map (fun acc => acc.1 ++ acc.2.1 ++ acc.2.2)

/-! ## Schema-directory loading (`src/common/src/infrastructure/documents.rs`
and `src/common/src/infrastructure/adapters/documents.rs`)

Both `DocumentsAdapter::load` versions read each schema file, parse it into
a `Document` (any I/O or parse failure aborts the whole load with `?`), and
insert the document into a `HashSet` hashed and compared by `Document::id`
alone, discarding `insert`'s boolean result.  The directory is modelled as
the list of per-file parse results in iteration order; the `HashSet` as the
list of kept documents in insertion order. -/

/-- `HashSet<Document>::insert` with `Hash`/`Eq` on `id`: when a document
with the same id is already present the set is left unchanged (the old
document is kept) — the returned boolean is dropped by the caller. -/
def hashSetInsertDoc (set : List Document) (d : Document) : List Document :=
  if set.any (fun e => e.id == d.id) then set else set ++ [d]

/-- The entry loop of `DocumentsAdapter::load`: the first parse failure
aborts the load (`?`), a parsed document is inserted into the id-keyed
set. -/
def loadLoop :
    List (Except String Document) → List Document → Except String (List Document)
  | [], set => .ok set
  | r :: rest, set =>
      match r with
      | .error e => .error e
      | .ok d => loadLoop rest (hashSetInsertDoc set d)

/-- `DocumentsAdapter::load`, after directory listing: fold the parse
results, propagating the first parse error and inserting each parsed
document into the id-keyed set (both `load` versions ignore the boolean
`insert` returns). -/
def DocumentsAdapter.load (parsed : List (Except String Document)) :
    Except String (List Document) :=
  loadLoop parsed []

/-! ## Row decoding (`src/service/src/infrastructure/persistence/repository.rs`)

The repository works on the `entities.rs` schema model; the decoding claim
only consumes `DocumentType::has_draft_and_publish`, which is the same
`options.map_or(false, ...)` projection as on `Document`.  A successfully
fetched row is modelled with the columns `parse_publication_state` reads:
`published_at`, `published_by`, `revision` (plus the `created_at` value the
caller passes in).  Timestamps are `Int` epoch values. -/

structure EntityDocumentTypeOptions where
  draftAndPublish : Bool
  localizations : List String
deriving DecidableEq

/-- The slice of `entities::DocumentType` the repository's decoding reads
(`id` and `options`; fields/relations do not enter `parse_publication_state`). -/
structure EntityDocumentType where
  id : String
  options : Option EntityDocumentTypeOptions
deriving DecidableEq

/-- `entities::DocumentType::has_draft_and_publish`
(`src/common/src/domain/entities.rs`). -/
def EntityDocumentType.has_draft_and_publish (d : EntityDocumentType) : Bool :=
  match d.options with
  | some o => o.draftAndPublish
  | none => false

/-- `PublicationState` (`src/service/src/domain/document/lifecycle.rs`). -/
inductive PublicationState where
  | draft (revision : Int)
  | published (revision : Int) (publishedAt : Int) (publishedBy : Option String)
deriving DecidableEq

/-- The columns `parse_publication_state` reads from a fetched row. -/
structure PublicationRow where
  publishedAt : Option Int
  publishedBy : Option String
  revision : Int
deriving DecidableEq

/-- `parse_publication_state`
(`src/service/src/infrastructure/persistence/repository.rs`): with
draft-and-publish, a present `published_at` yields `Published` with the
row's revision/published_by, an absent one yields `Draft { revision: 1 }`
(the literal `1` is the source's); without draft-and-publish the state is
`Published { revision: 1, published_at: created_at, published_by: None }`. -/
def parse_publication_state (schema : EntityDocumentType) (row : PublicationRow)
    (createdAt : Int) : PublicationState :=
  if schema.has_draft_and_publish then
    match row.publishedAt with
    | some publishedAt => .published row.revision publishedAt row.publishedBy
    | none => .draft 1
  else
    .published 1 createdAt none

/-! ## Relation grouping and joining
(`src/service/src/infrastructure/http/handlers/data/mod.rs`)

`ResultRow` is the variant with `owning_id: Option<i32>` used by these
handlers.  `DocumentRowResponse` itself is not in the sources (only its
commented-out `GroupedDocumentRowResponse` companion and the analogous
`DocumentInstanceResponse` are); it is modelled with its row identity, its
field map, and the relation attributes attached by `with_relations`. -/

/-- The handler-side result row (`owning_id`, `document_id`, decoded
fields). -/
structure ResultRow where
  owningId : Option Int
  documentId : Int
  fields : List (String × String)
deriving DecidableEq

/-- Modelled from the spec: `DocumentRowResponse` (its definition file is
missing from the sources; §4.4 requires row identity plus per-attribute
content, and relation population attaches per-attribute row lists). -/
inductive DocumentRowResponse where
  | mk (documentId : Int) (fields : List (String × String))
       (relations : List (String × List DocumentRowResponse))

def DocumentRowResponse.documentId : DocumentRowResponse → Int
  | .mk i _ _ => i

def DocumentRowResponse.fields : DocumentRowResponse → List (String × String)
  | .mk _ f _ => f

def DocumentRowResponse.relations :
    DocumentRowResponse → List (String × List DocumentRowResponse)
  | .mk _ _ r => r

/-- `DocumentRowResponse::from(ResultRow)`: carry the row identity and
fields; no relations attached yet. -/
def DocumentRowResponse.ofRow (r : ResultRow) : DocumentRowResponse :=
  .mk r.documentId r.fields []

/-- `with_relations` (modelled on `DocumentInstanceResponse::with_relations`
in `handlers/data/dto.rs`): attach the populated relation attributes to the
response. -/
def DocumentRowResponse.with_relations (d : DocumentRowResponse)
    (populated : List (String × List DocumentRowResponse)) : DocumentRowResponse :=
  .mk d.documentId d.fields populated

/-- `GroupedDocumentRowResponse` (shape from `handlers/data/dto.rs`). -/
structure GroupedDocumentRowResponse where
  owningId : Int
  rows : List DocumentRowResponse

/-- `Itertools::chunk_by` on the first component: split a list of keyed
items into runs of consecutive equal keys.  `go` carries the current run's
key and its collected items. -/
def chunkByKey : List (Int × DocumentRowResponse) → List (Int × List DocumentRowResponse)
  | [] => []
  | (k, a) :: rest => go k [a] rest
where
  go (k : Int) (run : List DocumentRowResponse) :
      List (Int × DocumentRowResponse) → List (Int × List DocumentRowResponse)
    | [] => [(k, run.reverse)]
    | (k2, a2) :: rest =>
        if k2 == k then go k (a2 :: run) rest
        else (k, run.reverse) :: go k2 [a2] rest

/-- `result_set_into_groped_document_response`
(`handlers/data/mod.rs`): drop rows without an owning id, chunk the rest by
consecutive owning id, and wrap each run. -/
def result_set_into_groped_document_response (rows : List ResultRow) :
    List GroupedDocumentRowResponse :=
  (chunkByKey (rows.filterMap (fun row =>
      row.owningId.map (fun oid => (oid, DocumentRowResponse.ofRow row))))).map
    (fun g => { owningId := g.1, rows := g.2 })

/-- `HashMap::insert`: replace the value at an existing key, otherwise
append the new binding. -/
def assocInsert {α : Type} (m : List (Int × α)) (k : Int) (v : α) : List (Int × α) :=
  if m.any (fun p => p.1 == k) then
    m.map (fun p => if p.1 == k then (k, v) else p)
  else m ++ [(k, v)]

/-- `HashMap::insert` with string keys. -/
def assocInsertStr {α : Type} (m : List (String × α)) (k : String) (v : α) :
    List (String × α) :=
  if m.any (fun p => p.1 == k) then
    m.map (fun p => if p.1 == k then (k, v) else p)
  else m ++ [(k, v)]

/-- `i32::cmp`, the comparator `join_relations` sorts and merges with. -/
def cmpInt (x y : Int) : Ordering :=
  if x < y then .lt else if x = y then .eq else .gt

/-- `Vec::sort_by` (stable) for the transposed owner list: insertion sort
that keeps earlier elements first among equal keys. -/
def sortByOwner {α : Type} : List (Int × α) → List (Int × α)
  | [] => []
  | x :: xs => insertSorted x (sortByOwner xs)
where
  insertSorted (x : Int × α) : List (Int × α) → List (Int × α)
    | [] => [x]
    | y :: ys => if cmpInt y.1 x.1 = .gt then x :: y :: ys
                 else y :: insertSorted x ys

/-- `itertools` `EitherOrBoth`. -/
inductive EitherOrBoth (α β : Type) where
  | left (a : α)
  | right (b : β)
  | both (a : α) (b : β)

/-- `Itertools::merge_join_by`: merge two sorted sequences by a comparator,
emitting `Both` on ties and advancing the smaller side otherwise. -/
def mergeJoinBy {α β : Type} (cmp : α → β → Ordering) :
    List α → List β → List (EitherOrBoth α β)
  | [], [] => []
  | [], b :: bs => .right b :: mergeJoinBy cmp [] bs
  | a :: as, [] => .left a :: mergeJoinBy cmp as []
  | a :: as, b :: bs =>
      match cmp a b with
      | .lt => .left a :: mergeJoinBy cmp as (b :: bs)
      | .eq => .both a b :: mergeJoinBy cmp as bs
      | .gt => .right b :: mergeJoinBy cmp (a :: as) bs
termination_by as bs => as.length + bs.length
decreasing_by all_goals simp_arith

/-- `join_relations` (`handlers/data/mod.rs`): transpose the per-attribute
groupings into a per-owner map, sort the owners, merge-join with the main
rows by row id, attach the populated relations on `Both`, keep unmatched
main rows unchanged, and drop groups without a main row. -/
def join_relations (main : List DocumentRowResponse)
    (relations : List (String × List GroupedDocumentRowResponse)) :
    List DocumentRowResponse :=
  let transposedMap : List (Int × List (String × List DocumentRowResponse)) :=
    relations.foldl
      (fun acc p =>
        p.2.foldl
          (fun acc g =>
            let entry := (acc.find? (fun q => q.1 == g.owningId)).map Prod.snd
            assocInsert acc g.owningId
              (assocInsertStr (entry.getD []) p.1 g.rows))
          acc)
      []
  let transposed := sortByOwner transposedMap
  let joined := mergeJoinBy (fun a b => cmpInt a.documentId b.1) main transposed
  joined.foldl
    (fun acc item =>
      match item with
      | .both entity p => acc ++ [entity.with_relations p.2]
      | .left entity => acc ++ [entity]
      | .right _ => acc)
    []

/-! ## Closed forms used to state the derivation claims -/

/-- The main-table column contributed by one attribute: the mapped column
for a non-localized field, nothing for a localized field or a relation. -/
def mainFieldColumn (a : Attribute) : Option Column :=
  match a.body with
  | .field attributeType unique required localized _ =>
      if localized then none
      else some (Column.new (normalizedStr a.id) (some a.id)
        (attributeColumnType attributeType) none required unique none)
  | .relation _ _ _ => none

/-- The junction table contributed by one attribute: one table for an
owning relation with a resolved target, nothing for a field or an inverse
relation (an owning relation with an unresolved target never survives a
successful derivation). -/
def relationContribution (mainTableName owningColumnName : String)
    (a : Attribute) : Option Table :=
  match a.body with
  | .relation relationType (.byRef targetDoc) ordering =>
      if relationType.is_owning then
        some (relationTableFor mainTableName owningColumnName
          (normalizedStr a.id) targetDoc ordering)
      else none
  | _ => none

/-- Whether an attribute is an owning-kind relation. -/
def Attribute.isOwningRelation (a : Attribute) : Bool :=
  match a.body with
  | .relation relationType _ _ => relationType.is_owning
  | _ => false

/-! ## Concrete inputs for counterexamples and witnesses -/

/-- A plain target document with one text field. -/
def articleDoc : Document :=
  .mk "article" .collection ⟨"Article", "", "article", "articles"⟩ none
    [.mk "title" (.field .text false true false none)]

/-- A document exercising every branch of the derivation: plain fields, a
localized field, a draft-and-publish option, an owning relation with a
resolved target, and an inverse relation. -/
def authorDoc : Document :=
  .mk "author" .collection ⟨"Author", "", "author", "authors"⟩
    (some ⟨true, ["en"]⟩)
    [.mk "name" (.field .text false true false none),
     .mk "bio" (.field .text false false true none),
     .mk "age" (.field .integer false false false none),
     .mk "articles" (.relation .hasMany (.byRef articleDoc) true),
     .mk "fans" (.relation .belongsToMany (.byId "fan") false)]

/-- The derivation result for `authorDoc` (total by construction; the
fallback is never reached). -/
def authorPersistence : DocumentPersistence :=
  match DocumentPersistence.from authorDoc with
  | some p => p
  | none => ⟨⟨"", [], [], []⟩, none, []⟩

/-- A localized document with no attributes (for the table-order
counterexample). -/
def docLocEx : Document :=
  .mk "a" .collection ⟨"A", "", "a", "as"⟩ (some ⟨false, ["en"]⟩) []

/-- A plain document with no attributes. -/
def docPlainEx : Document :=
  .mk "b" .collection ⟨"B", "", "b", "bs"⟩ none []

/-- The per-document derivations of `[docLocEx, docPlainEx]`. -/
def docsPersistenceEx : List DocumentPersistence :=
  ([docLocEx, docPlainEx].mapM DocumentPersistence.from).getD []

/-- The needed tables of the one-document set `[docPlainEx]`. -/
def neededEx : List Table :=
  (documents_into_tables [docPlainEx]).getD []

/-- The migration plan for `[docPlainEx]` against an empty database. -/
def planEx : List Table :=
  (Migration.migratePlan [docPlainEx] []).getD []

/-- First of two schema files declaring the document-type id `post`. -/
def dupDocA : Document :=
  .mk "post" .collection ⟨"Post", "", "post", "posts"⟩ none []

/-- Second schema file declaring the same id `post` with different info. -/
def dupDocB : Document :=
  .mk "post" .collection ⟨"Post Again", "", "post2", "posts2"⟩ none []

/-- A draft-and-publish schema for the decoding claim. -/
def dpSchemaEx : EntityDocumentType := ⟨"page", some ⟨true, []⟩⟩

/-- A decoded row with `published_at` NULL and revision 5. -/
def draftRowEx : PublicationRow := ⟨none, none, 5⟩

/-- First related row of owner 1. -/
def relRow1 : ResultRow := ⟨some 1, 10, [("title", "r1")]⟩

/-- Second related row of owner 1. -/
def relRow2 : ResultRow := ⟨some 1, 11, [("title", "r2")]⟩

/-- Main response row of owner A (id 1). -/
def mainRespA : DocumentRowResponse := .mk 1 [("name", "a")] []

/-- Main response row of owner B (id 2), with zero related rows. -/
def mainRespB : DocumentRowResponse := .mk 2 [("name", "b")] []

/-! ## Identifier theorems -/

theorem eq_of_beginsWithChars :
    ∀ (l p : List Char), beginsWithChars l p = true → l.length = p.length → l = p
  | [], [], _, _ => rfl
  | _ :: _, [], _, hlen => by simp at hlen
  | [], _ :: _, h, _ => by simp [beginsWithChars] at h
  | c :: cs, x :: xs, h, hlen => by
      simp only [beginsWithChars, Bool.and_eq_true, beq_iff_eq] at h
      simp only [List.length_cons, Nat.succ.injEq] at hlen
      rw [h.1, eq_of_beginsWithChars cs xs h.2 hlen]

/-- C8: for every input string, `DocumentTypeId` and `AttributeId`
construction first trims and lowercases, then succeeds (producing exactly
the sanitized string) if and only if the result is non-empty, at most 20
characters, made of eligible symbols only, and not starting with the
reserved `luminair_` prefix; on violation no value is produced. -/
theorem id_construction_correct (s : String) :
    (isValidIdString (sanitizeId s) = true →
      DocumentTypeId.tryNew s = Except.ok (sanitizeId s) ∧
      AttributeId.tryNew s = Except.ok (sanitizeId s)) ∧
    (isValidIdString (sanitizeId s) = false →
      (DocumentTypeId.tryNew s).isOk = false ∧
      (AttributeId.tryNew s).isOk = false) := by
  have hsplit : isValidIdString (sanitizeId s) = true ↔
      ((sanitizeId s).data.isEmpty = false ∧ ¬20 < (sanitizeId s).data.length ∧
        is_eligible_id (sanitizeId s) = true) := by
    simp only [isValidIdString, is_eligible_id, Bool.and_eq_true, Bool.not_eq_true',
      decide_eq_true_eq, Nat.not_lt]
    tauto
  constructor
  · intro h
    obtain ⟨h1, h2, h3⟩ := hsplit.mp h
    have h2' : (sanitizeId s).length ≤ 20 := Nat.not_lt.mp h2
    constructor <;>
      simp [DocumentTypeId.tryNew, AttributeId.tryNew, h1, h2, h2', h3]
  · intro h
    rw [← Bool.not_eq_true, hsplit] at h
    push_neg at h
    constructor <;>
    · simp only [DocumentTypeId.tryNew, AttributeId.tryNew]
      split
      · rfl
      · split
        · rfl
        · split
          · rfl
          · rename_i hc1 hc2 hc3
            simp only [Bool.not_eq_true] at hc1
            simp only [Nat.not_lt] at hc2 hc3
            simp only [Bool.not_eq_true', Bool.not_eq_false] at hc3
            exact absurd (h hc1 (by omega)) (by simp [hc3])

theorem id_construction_correct_witness :
    isValidIdString (sanitizeId " My-Id ") = true ∧
      DocumentTypeId.tryNew " My-Id " = Except.ok "my-id" :=
  ⟨by decide, ((id_construction_correct " My-Id ").1 (by decide)).1⟩

/-- C9: on every valid identifier, normalization is idempotent and only
replaces dashes with underscores — it keeps the length, and every
character is either unchanged or a dash turned into an underscore (so the
case of letters never changes). -/
theorem normalized_idempotent_only_dashes (s : String)
    (_hvalid : is_eligible_id s = true) :
    normalizedStr (normalizedStr s) = normalizedStr s ∧
    (normalizedStr s).data.length = s.data.length ∧
    List.Forall₂ (fun c c' => c' = c ∨ (c = '-' ∧ c' = '_'))
      s.data (normalizedStr s).data := by
  refine ⟨?_, ?_, ?_⟩
  · apply String.ext
    show (s.data.map _).map _ = s.data.map _
    rw [List.map_map]
    apply List.map_congr_left
    intro c _
    by_cases hc : c = '-' <;> simp [hc, Function.comp]
  · exact List.length_map _ _
  · show List.Forall₂ _ s.data (s.data.map _)
    induction s.data with
    | nil => exact List.Forall₂.nil
    | cons c cs ih =>
        refine List.Forall₂.cons ?_ ih
        by_cases hc : c = '-' <;> simp [hc]

theorem normalized_idempotent_only_dashes_witness :
    is_eligible_id "my-id_1" = true ∧
      normalizedStr (normalizedStr "my-id_1") = normalizedStr "my-id_1" :=
  ⟨by decide, (normalized_idempotent_only_dashes "my-id_1" (by decide)).1⟩

/-- C10: `LocalizationId` construction (after trimming and lowercasing)
succeeds exactly for the strings "ru", "ro" and "en" — every other input,
including every other two-letter code, is rejected. -/
theorem localizationId_exactly_ru_ro_en (s : String) :
    (LocalizationId.tryNew s).isOk = true ↔
      (sanitizeId s = "ru" ∨ sanitizeId s = "ro" ∨ sanitizeId s = "en") := by
  constructor
  · intro h
    simp only [LocalizationId.tryNew] at h
    split at h
    · exact Bool.noConfusion h
    · split at h
      · exact Bool.noConfusion h
      · split at h
        · exact Bool.noConfusion h
        · split at h
          · exact Bool.noConfusion h
          · rename_i hne hmin hmax hregex
            simp only [Nat.not_lt] at hmin hmax
            have hlen : (sanitizeId s).data.length = 2 := Nat.le_antisymm hmax hmin
            simp only [Bool.not_eq_true', Bool.not_eq_false,
              matchesValidLocalizations, Bool.or_eq_true] at hregex
            rcases hregex with (hr | hr) | hr
            · exact Or.inl
                (String.ext (eq_of_beginsWithChars _ _ hr (by rw [hlen]; decide)))
            · exact Or.inr (Or.inl
                (String.ext (eq_of_beginsWithChars _ _ hr (by rw [hlen]; decide))))
            · exact Or.inr (Or.inr
                (String.ext (eq_of_beginsWithChars _ _ hr (by rw [hlen]; decide))))
  · intro h
    rcases h with h | h | h <;>
    · simp only [LocalizationId.tryNew, h]
      decide

/-! ## Row-decoding theorems -/

/-- C6 counterexample: with draft-and-publish enabled and `published_at`
NULL, the decoder does not return the row's revision — `draftRowEx` has
revision 5 and the decoder yields `Draft { revision: 1 }`. -/
theorem parse_publication_state_drops_row_revision :
    parse_publication_state dpSchemaEx draftRowEx 0 ≠
      PublicationState.draft draftRowEx.revision := by
  decide

/-- C6 (amended): with draft-and-publish enabled, a NULL `published_at`
yields `Draft` with the constant revision 1 (the row's revision column is
ignored in this branch) and a non-NULL one yields `Published` with the
row's revision, the timestamp and `published_by`; without draft-and-publish
every row decodes to `Published` with revision 1 and `created_at` as the
published timestamp. -/
theorem parse_publication_state_spec (schema : EntityDocumentType)
    (row : PublicationRow) (createdAt : Int) :
    (schema.has_draft_and_publish = true → row.publishedAt = none →
      parse_publication_state schema row createdAt = .draft 1) ∧
    (∀ t, schema.has_draft_and_publish = true → row.publishedAt = some t →
      parse_publication_state schema row createdAt =
        .published row.revision t row.publishedBy) ∧
    (schema.has_draft_and_publish = false →
      parse_publication_state schema row createdAt = .published 1 createdAt none) := by
  refine ⟨?_, ?_, ?_⟩ <;> intros <;> simp [parse_publication_state, *]

theorem parse_publication_state_spec_witness :
    dpSchemaEx.has_draft_and_publish = true ∧ draftRowEx.publishedAt = none ∧
      parse_publication_state dpSchemaEx draftRowEx 0 = .draft 1 :=
  ⟨by decide, by decide,
    (parse_publication_state_spec dpSchemaEx draftRowEx 0).1 (by decide) (by decide)⟩

/-! ## Loading theorems -/

/-- C5 counterexample: a directory with two files declaring the same
document-type id `post` loads successfully — the second document is
silently dropped, no load error is returned. -/
theorem load_duplicate_id_succeeds :
    DocumentsAdapter.load [.ok dupDocA, .ok dupDocB] = .ok [dupDocA] := by
  rfl

/-- C5 (amended): a later schema file whose document-type id equals that of
an earlier one is silently ignored by the load — the result is the same as
if the duplicate file were not there, and the load succeeds whenever every
file parses. -/
theorem load_duplicate_id_ignored (d1 d2 : Document)
    (rest : List (Except String Document)) (h : d1.id = d2.id) :
    DocumentsAdapter.load (.ok d1 :: .ok d2 :: rest) =
      DocumentsAdapter.load (.ok d1 :: rest) := by
  have h1 : hashSetInsertDoc [] d1 = [d1] := by simp [hashSetInsertDoc]
  have h2 : hashSetInsertDoc [d1] d2 = [d1] := by simp [hashSetInsertDoc, h]
  simp [DocumentsAdapter.load, loadLoop, h1, h2]

theorem load_duplicate_id_ignored_witness :
    dupDocA.id = dupDocB.id ∧
      DocumentsAdapter.load [.ok dupDocA, .ok dupDocB] =
        DocumentsAdapter.load [.ok dupDocA] :=
  ⟨rfl, load_duplicate_id_ignored dupDocA dupDocB [] rfl⟩

/-! ## Derivation theorems -/

/-- What a successful run of the attribute loop does to the builders: the
main builder gains exactly the non-localized field columns in attribute
order, the relation builder gains exactly the owning-relation junction
tables, both builders keep their naming state, and every owning relation
had a resolved (`byRef`) target. -/
theorem handleAttributes_spec (attrs : List Attribute) :
    ∀ (m : MainTableBuilder) (l : LocalizationTableBuilder)
      (r : RelationTablesBuilder) (m' : MainTableBuilder)
      (l' : LocalizationTableBuilder) (r' : RelationTablesBuilder),
    handleAttributes attrs (m, l, r) = some (m', l', r') →
      m'.tableName = m.tableName ∧
      m'.hasDraftAndPublish = m.hasDraftAndPublish ∧
      m'.columns = m.columns ++ attrs.filterMap mainFieldColumn ∧
      r'.mainTableName = r.mainTableName ∧
      r'.owningColumnName = r.owningColumnName ∧
      r'.relationTables = r.relationTables ++
        attrs.filterMap (relationContribution r.mainTableName r.owningColumnName) ∧
      (∀ a ∈ attrs, a.isOwningRelation = true →
        ∃ relationType targetDoc ordering,
          a.body = .relation relationType (.byRef targetDoc) ordering) := by
  induction attrs with
  | nil =>
      intro m l r m' l' r' h
      simp only [handleAttributes, Option.some.injEq, Prod.mk.injEq] at h
      obtain ⟨hm, hl, hr⟩ := h
      subst hm; subst hl; subst hr
      simp
  | cons a as ih =>
      intro m l r m' l' r' h
      simp only [handleAttributes] at h
      cases hb : a.body with
      | field attributeType unique required localized constraints =>
          simp only [handle_document_attribute, hb] at h
          by_cases hloc : localized
          · simp only [hloc, if_true] at h
            obtain ⟨e1, e2, e3, e4, e5, e6, e7⟩ := ih _ _ _ _ _ _ h
            refine ⟨e1, e2, ?_, e4, e5, ?_, ?_⟩
            · rw [e3]
              simp [mainFieldColumn, hb, hloc, LocalizationTableBuilder.push]
            · rw [e6]
              simp [relationContribution, hb]
            · intro a' ha' how
              rcases List.mem_cons.mp ha' with ha' | ha'
              · subst ha'
                simp [Attribute.isOwningRelation, hb] at how
              · exact e7 a' ha' how
          · simp only [hloc, if_false] at h
            obtain ⟨e1, e2, e3, e4, e5, e6, e7⟩ := ih _ _ _ _ _ _ h
            refine ⟨e1, e2, ?_, e4, e5, ?_, ?_⟩
            · rw [e3]
              simp [mainFieldColumn, hb, hloc, MainTableBuilder.push]
            · rw [e6]
              simp [relationContribution, hb]
            · intro a' ha' how
              rcases List.mem_cons.mp ha' with ha' | ha'
              · subst ha'
                simp [Attribute.isOwningRelation, hb] at how
              · exact e7 a' ha' how
      | relation relationType target ordering =>
          simp only [handle_document_attribute, hb] at h
          by_cases how : relationType.is_owning
          · simp only [how, if_true] at h
            cases target with
            | byId tid => simp [RelationTablesBuilder.push] at h
            | byRef targetDoc =>
                simp only [RelationTablesBuilder.push, Option.map_some'] at h
                obtain ⟨e1, e2, e3, e4, e5, e6, e7⟩ := ih _ _ _ _ _ _ h
                refine ⟨e1, e2, ?_, e4, e5, ?_, ?_⟩
                · rw [e3]
                  simp [mainFieldColumn, hb]
                · rw [e6]
                  simp [relationContribution, hb, how, List.append_assoc]
                · intro a' ha' _
                  rcases List.mem_cons.mp ha' with ha' | ha'
                  · subst ha'
                    exact ⟨relationType, targetDoc, ordering, hb⟩
                  · rename_i how'
                    exact e7 a' ha' how'
          · simp only [how, if_false] at h
            obtain ⟨e1, e2, e3, e4, e5, e6, e7⟩ := ih _ _ _ _ _ _ h
            refine ⟨e1, e2, ?_, e4, e5, ?_, ?_⟩
            · rw [e3]
              simp [mainFieldColumn, hb]
            · rw [e6]
              cases target <;> simp [relationContribution, hb, how]
            · intro a' ha' how'
              rcases List.mem_cons.mp ha' with ha' | ha'
              · subst ha'
                simp [Attribute.isOwningRelation, hb, how] at how'
              · exact e7 a' ha' how'

/-- C1: for every document whose derivation succeeds, the main table is
named `normalized(id)` and its columns are exactly: the surrogate primary
key, one column per non-localized field with the SQL type given by the
fixed `AttributeType → ColumnType` mapping, then `created_at` (not-null,
default `now()`), `updated_at`, and — only when draft-and-publish is set —
`published_at`. -/
theorem main_table_spec (d : Document) (p : DocumentPersistence)
    (h : DocumentPersistence.from d = some p) :
    p.mainTable.name = normalizedStr d.id ∧
    p.mainTable.columns =
      [Column.primaryKeyCol "document_id" .serial none] ++
        d.attributes.filterMap mainFieldColumn ++
        [createdAtColumn, updatedAtColumn] ++
        (if d.has_draft_and_publish then [publishedAtColumn] else []) := by
  simp only [DocumentPersistence.from] at h
  cases hh : handleAttributes d.attributes
      (MainTableBuilder.new d,
       LocalizationTableBuilder.new (MainTableBuilder.new d).tableName,
       RelationTablesBuilder.new d (MainTableBuilder.new d).tableName) with
  | none => rw [hh] at h; simp at h
  | some s =>
      obtain ⟨m', l', r'⟩ := s
      rw [hh] at h
      simp only [Option.map_some', Option.some.injEq] at h
      obtain ⟨e1, e2, e3, _, _, _, _⟩ :=
        handleAttributes_spec d.attributes _ _ _ _ _ _ hh
      subst h
      constructor
      · simp [MainTableBuilder.intoTable, e1, MainTableBuilder.new]
      · simp only [MainTableBuilder.intoTable, e3, e2, MainTableBuilder.new,
          List.append_assoc]

theorem main_table_spec_witness :
    DocumentPersistence.from authorDoc = some authorPersistence ∧
      authorPersistence.mainTable.name = normalizedStr authorDoc.id :=
  ⟨by decide, (main_table_spec authorDoc authorPersistence (by decide)).1⟩

/-- How many junction tables the contribution map yields: one per owning
relation, provided every owning relation's target is resolved. -/
theorem length_filterMap_relationContribution (mainTableName owningColumnName : String) :
    ∀ (attrs : List Attribute),
    (∀ a ∈ attrs, a.isOwningRelation = true →
      ∃ relationType targetDoc ordering,
        a.body = .relation relationType (.byRef targetDoc) ordering) →
    (attrs.filterMap (relationContribution mainTableName owningColumnName)).length =
      (attrs.filter Attribute.isOwningRelation).length := by
  intro attrs
  induction attrs with
  | nil => intro _; rfl
  | cons a as ih =>
      intro hres
      have hrest := fun a' ha' => hres a' (List.mem_cons_of_mem _ ha')
      cases hb : a.body with
      | field attributeType unique required localized constraints =>
          simp only [List.filterMap_cons, List.filter_cons]
          rw [show relationContribution mainTableName owningColumnName a = none by
                simp [relationContribution, hb],
              show a.isOwningRelation = false by simp [Attribute.isOwningRelation, hb]]
          simpa using ih hrest
      | relation relationType target ordering =>
          by_cases how : relationType.is_owning
          · obtain ⟨rt, td, od, hbody⟩ :=
              hres a (List.mem_cons_self a as)
                (by simp [Attribute.isOwningRelation, hb, how])
            rw [hb] at hbody
            injection hbody with h1 h2 h3
            subst h1; subst h2; subst h3
            simp only [List.filterMap_cons, List.filter_cons]
            rw [show relationContribution mainTableName owningColumnName a =
                  some (relationTableFor mainTableName owningColumnName
                    (normalizedStr a.id) td ordering) by
                simp [relationContribution, hb, how],
                show a.isOwningRelation = true by
                  simp [Attribute.isOwningRelation, hb, how]]
            simpa using ih hrest
          · simp only [List.filterMap_cons, List.filter_cons]
            rw [show relationContribution mainTableName owningColumnName a = none by
                  cases target <;> simp [relationContribution, hb, how],
                show a.isOwningRelation = false by
                  simp [Attribute.isOwningRelation, hb, how]]
            simpa using ih hrest

/-- C2: for every document whose derivation succeeds, the emitted junction
tables are exactly the contributions of its owning-kind relation attributes
(in attribute order), so there is exactly one junction table per owning
relation and zero tables for every inverse-kind relation or field. -/
theorem relation_tables_spec (d : Document) (p : DocumentPersistence)
    (h : DocumentPersistence.from d = some p) :
    p.relationTables = d.attributes.filterMap
      (relationContribution (normalizedStr d.id)
        (normalizedStr d.info.singularName ++ "_id")) ∧
    p.relationTables.length = (d.attributes.filter Attribute.isOwningRelation).length := by
  simp only [DocumentPersistence.from] at h
  cases hh : handleAttributes d.attributes
      (MainTableBuilder.new d,
       LocalizationTableBuilder.new (MainTableBuilder.new d).tableName,
       RelationTablesBuilder.new d (MainTableBuilder.new d).tableName) with
  | none => rw [hh] at h; simp at h
  | some s =>
      obtain ⟨m', l', r'⟩ := s
      rw [hh] at h
      simp only [Option.map_some', Option.some.injEq] at h
      obtain ⟨_, _, _, _, _, e6, e7⟩ :=
        handleAttributes_spec d.attributes _ _ _ _ _ _ hh
      subst h
      have hmain : (RelationTablesBuilder.new d (MainTableBuilder.new d).tableName).mainTableName
          = normalizedStr d.id := by
        simp [RelationTablesBuilder.new, MainTableBuilder.new]
      have howning :
          (RelationTablesBuilder.new d (MainTableBuilder.new d).tableName).owningColumnName
          = normalizedStr d.info.singularName ++ "_id" := by
        simp [RelationTablesBuilder.new]
      rw [hmain, howning] at e6
      have hfirst : r'.relationTables = d.attributes.filterMap
          (relationContribution (normalizedStr d.id)
            (normalizedStr d.info.singularName ++ "_id")) := by
        rw [e6]
        simp [RelationTablesBuilder.new]
      refine ⟨hfirst, ?_⟩
      rw [hfirst]
      exact length_filterMap_relationContribution _ _ d.attributes e7

theorem relation_tables_spec_witness :
    DocumentPersistence.from authorDoc = some authorPersistence ∧
      authorPersistence.relationTables.length =
        (authorDoc.attributes.filter Attribute.isOwningRelation).length :=
  ⟨by decide, (relation_tables_spec authorDoc authorPersistence (by decide)).2⟩

/-! ## Migration theorems -/

/-- What the document loop accumulates: each document's main table followed
by its localization table, in iteration order, into `tables`; all relation
tables, in iteration order, into `relationTables`. -/
theorem migrationTablesLoop_spec (docs : List Document) :
    ∀ (ps : List DocumentPersistence) (tables relationTables : List Table),
    docs.mapM DocumentPersistence.from = some ps →
    migrationTablesLoop docs tables relationTables = some
      (tables ++ ps.flatMap (fun p => p.mainTable :: p.localizationTable.toList),
       relationTables ++ ps.flatMap (fun p => p.relationTables)) := by
  induction docs with
  | nil =>
      intro ps tables relationTables h
      simp only [List.mapM_nil, pure, Option.some.injEq] at h
      subst h
      simp [migrationTablesLoop]
  | cons d ds ih =>
      intro ps tables relationTables h
      rw [List.mapM_cons] at h
      cases hd : DocumentPersistence.from d with
      | none => rw [hd] at h; simp at h
      | some p =>
          rw [hd] at h
          cases hds : ds.mapM DocumentPersistence.from with
          | none => rw [hds] at h; simp at h
          | some ps' =>
              rw [hds] at h
              simp only [Option.bind_some, Option.bind_eq_bind, pure,
                Option.some_bind, Option.some.injEq] at h
              subst h
              simp only [migrationTablesLoop, hd, ih ps' _ _ hds,
                List.flatMap_cons, List.append_assoc, List.cons_append,
                List.nil_append, Option.some.injEq, Prod.mk.injEq]

/-- C4 counterexample: on the two-document set `[docLocEx, docPlainEx]`
the computed table list interleaves `docLocEx`'s localization table between
the two main tables, so it is not "all main tables first, then all
localization tables". -/
theorem documents_into_tables_not_phased :
    documents_into_tables [docLocEx, docPlainEx] ≠
      phasedTables [docLocEx, docPlainEx] := by
  decide

/-- C4 (amended): for every document set whose derivation succeeds, the
computed table list is each document's main table followed directly by its
localization table (when present), in iteration order, with all relation
tables of all documents appended last. -/
theorem documents_into_tables_interleaved (docs : List Document)
    (ps : List DocumentPersistence)
    (h : docs.mapM DocumentPersistence.from = some ps) :
    documents_into_tables docs = some
      ((ps.flatMap (fun p => p.mainTable :: p.localizationTable.toList)) ++
        ps.flatMap (fun p => p.relationTables)) := by
  simp [documents_into_tables, migrationTablesLoop_spec docs ps [] [] h]

theorem documents_into_tables_interleaved_witness :
    [docLocEx, docPlainEx].mapM DocumentPersistence.from = some docsPersistenceEx ∧
      documents_into_tables [docLocEx, docPlainEx] = some
        ((docsPersistenceEx.flatMap
            (fun p => p.mainTable :: p.localizationTable.toList)) ++
          docsPersistenceEx.flatMap (fun p => p.relationTables)) :=
  ⟨by decide, documents_into_tables_interleaved _ docsPersistenceEx (by decide)⟩

/-- C3: the migration plan keeps exactly the needed tables whose names are
absent from the live table-name list — a table whose name is present is
never planned, whatever its columns — and re-running the engine after the
planned tables have been created yields an empty plan (zero DDL). -/
theorem migration_plan_idempotent (docs : List Document)
    (needed plan1 : List Table) (actual : List String)
    (hn : documents_into_tables docs = some needed)
    (hp : Migration.migratePlan docs actual = some plan1) :
    (∀ t, t ∈ plan1 ↔ (t ∈ needed ∧ actual.contains t.name = false)) ∧
    Migration.migratePlan docs (actual ++ plan1.map Table.name) = some [] := by
  have hplan : plan1 = Migration.plan needed actual := by
    simp only [Migration.migratePlan, hn, Option.map_some', Option.some.injEq] at hp
    exact hp.symm
  subst hplan
  constructor
  · intro t
    simp [Migration.plan, List.mem_filter]
  · simp only [Migration.migratePlan, hn, Option.map_some', Option.some.injEq]
    simp only [Migration.plan]
    rw [List.filter_eq_nil_iff]
    intro t ht
    simp
    intro hmem
    exact ⟨t, ht, hmem, rfl⟩

theorem migration_plan_idempotent_witness :
    Migration.migratePlan [docPlainEx] ([] ++ planEx.map Table.name) = some [] :=
  (migration_plan_idempotent [docPlainEx] neededEx planEx []
    (by decide) (by decide)).2

/-! ## Relation grouping theorems -/

/-- C7 counterexample: over owners 1 and 2, where owner 1 has the two
returned rows and owner 2 has none, the grouping contains only owner 1 —
owner 2 is absent from the returned grouping, not mapped to an empty
list. -/
theorem grouping_absent_owner :
    (result_set_into_groped_document_response [relRow1, relRow2]).map
        GroupedDocumentRowResponse.owningId = [1] ∧
    ¬ ∃ g ∈ result_set_into_groped_document_response [relRow1, relRow2],
        g.owningId = 2 := by
  constructor
  · rfl
  · decide

/-- C7 (amended): for a batched relation fetch over owners `[A, B]` where A
owns the two returned rows and B owns none, the grouping maps A to its two
rows and contains no entry for B; `join_relations` then attaches the two
rows to A's response and passes B's response through unchanged (B's zero
rows are tolerated, not an error). -/
theorem batch_grouping_join_spec (a b : Int) (r1 r2 : ResultRow)
    (mA mB : DocumentRowResponse) (attr : String)
    (hab : a < b) (h1 : r1.owningId = some a) (h2 : r2.owningId = some a)
    (ha : mA.documentId = a) (_hb : mB.documentId = b) :
    result_set_into_groped_document_response [r1, r2] =
      [⟨a, [DocumentRowResponse.ofRow r1, DocumentRowResponse.ofRow r2]⟩] ∧
    (¬ ∃ g ∈ result_set_into_groped_document_response [r1, r2],
        g.owningId = b) ∧
    join_relations [mA, mB]
        [(attr, result_set_into_groped_document_response [r1, r2])] =
      [mA.with_relations
          [(attr, [DocumentRowResponse.ofRow r1, DocumentRowResponse.ofRow r2])],
        mB] := by
  have hne : a ≠ b := Int.ne_of_lt hab
  have hfirst : result_set_into_groped_document_response [r1, r2] =
      [⟨a, [DocumentRowResponse.ofRow r1, DocumentRowResponse.ofRow r2]⟩] := by
    simp [result_set_into_groped_document_response, h1, h2,
      chunkByKey, chunkByKey.go]
  refine ⟨hfirst, ?_, ?_⟩
  · rw [hfirst]
    simp [hne]
  · rw [hfirst]
    simp [join_relations, assocInsert, assocInsertStr, sortByOwner,
      sortByOwner.insertSorted, mergeJoinBy, cmpInt, ha, hab,
      DocumentRowResponse.with_relations]

theorem batch_grouping_join_spec_witness :
    join_relations [mainRespA, mainRespB]
        [("articles", result_set_into_groped_document_response [relRow1, relRow2])] =
      [mainRespA.with_relations [("articles",
          [DocumentRowResponse.ofRow relRow1, DocumentRowResponse.ofRow relRow2])],
        mainRespB] :=
  (batch_grouping_join_spec 1 2 relRow1 relRow2 mainRespA mainRespB "articles"
    (by decide) (by decide) (by decide) (by decide) (by decide)).2.2

end Luminair
